import Mathlib

/-!
Verification development for the ImageBatchProcessor repository.

The repository is a producer/consumer image batch processor:
* `config_loader.py` — `ConfigLoader.load_config` reads a JSON configuration
  file, raising `FileNotFoundError` when the path is missing and `ValueError`
  when the content is not valid JSON.
* `app_manager.py` — `BatchProcessorApp` loads the configuration, starts a
  pool of worker threads, enumerates and validates files from the source
  folder into a shared `queue.Queue`, waits on `queue.join()`, raises the
  stop event, and joins all workers.
* `worker.py` — `ImageWorker.run` loops while the stop event is clear or the
  queue is non-empty, dequeuing with a one second timeout, processing each
  image (all transform failures caught and logged) and calling `task_done`
  exactly once per successful dequeue.

The development embeds these components shallowly: pure helpers become Lean
functions, exceptions become `Except`/`Option`, and the concurrent
producer/consumer lifecycle becomes a small-step transition system
(`IBP.applyStep`) over explicit system states, driven by finite action
traces chosen by a scheduler.
-/

namespace IBP

/-! ## Configuration model (`config_loader.py`, `BatchProcessorApp.__init__`)

A parsed configuration is modelled as a structure; a key that may be absent
from the JSON dictionary is an `Option` field (Python dictionary access
`config[key]` raises `KeyError` on a missing key). -/

/-- The configuration fields consumed by the core.  `numberOfThreads` is
`none` when the `number_of_threads` key is absent from the JSON file. -/
structure Config where
  numberOfThreads : Option Int
  sourceFolder : String
  destinationFolder : String
  logFile : String
  resizeWidth : Nat
  resizeHeight : Nat
deriving DecidableEq, Repr

/-- String prefix test over the underlying character lists. -/
def strStartsWith (s pre : String) : Bool :=
  pre.data.isPrefixOf s.data

/-- String suffix test over the underlying character lists. -/
def strEndsWith (s post : String) : Bool :=
  post.data.isSuffixOf s.data

/-- POSIX `os.path.join` on two components: an absolute second component
replaces the first; otherwise the two are joined with a separator unless the
first is empty or already ends with one. -/
def pathJoin (a b : String) : String :=
  if strStartsWith b "/" then b
  else if a = "" || strEndsWith a "/" then a ++ b
  else a ++ "/" ++ b

/-- The errors `ConfigLoader.load_config` can raise. -/
inductive LoadError where
  | fileNotFound (path : String)
  | valueError (msg : String)
deriving DecidableEq, Repr

/-- Embeds `ConfigLoader.load_config`.  `pathExists` is the result of
`os.path.exists(self.config_path)`; `parsed` is the result of `json.load`
(`Except.error msg` when the content is not valid JSON, in which case the
code re-raises the decode error as `ValueError`). -/
def loadConfig (configPath : String) (pathExists : Bool)
    (parsed : Except String Config) : Except LoadError Config :=
  if !pathExists then
    .error (.fileNotFound ("Configuration file not found at: " ++ configPath))
  else
    match parsed with
    | .error e => .error (.valueError ("Failed to parse JSON config: " ++ e))
    | .ok c => .ok c

/-- Embeds `BatchProcessorApp._resolve_paths`: the three path-valued fields
are joined onto the base directory. -/
def resolvePaths (baseDir : String) (c : Config) : Config :=
  { c with
    sourceFolder := pathJoin baseDir c.sourceFolder
    destinationFolder := pathJoin baseDir c.destinationFolder
    logFile := pathJoin baseDir c.logFile }

/-- Embeds the configuration-loading portion of `BatchProcessorApp.__init__`:
the config path is `<base>/conf/config.json`, the loader runs, and on success
the relative paths are resolved.  A loader error propagates and construction
does not proceed. -/
def appInit (baseDir : String) (pathExists : Bool)
    (parsed : Except String Config) : Except LoadError Config :=
  match loadConfig (pathJoin (pathJoin baseDir "conf") "config.json") pathExists parsed with
  | .error e => .error e
  | .ok c => .ok (resolvePaths baseDir c)

/-! ## Pool sizing (`BatchProcessorApp._start_workers`) -/

/-- Python `os.cpu_count() or 4`: `cpu_count` returns `None` (undetectable)
or an integer; `or` substitutes `4` for any falsy result. -/
def cpuCountOr4 : Option Nat → Nat
  | none => 4
  | some 0 => 4
  | some (n + 1) => n + 1

/-- Embeds the pool-size computation of `BatchProcessorApp._start_workers`.
`self.config['number_of_threads']` raises `KeyError` when the key is absent;
otherwise a non-positive value selects CPU auto-detection and a positive
value is used directly. -/
def startWorkersCount (numberOfThreads : Option Int) (cpuCount : Option Nat) :
    Except String Nat :=
  match numberOfThreads with
  | none => .error "KeyError: number_of_threads"
  | some t => if t ≤ 0 then .ok (cpuCountOr4 cpuCount) else .ok t.toNat

/-! ## Task source (`BatchProcessorApp._validate_input_file`,
`BatchProcessorApp._produce_tasks`)

A directory entry is modelled by the observations the validation code makes
of the file system: `isFile` is the result of `os.path.isfile`; `sizeNow` is
the result of `os.path.getsize`, `none` when the file has disappeared between
the two checks so that `getsize` raises `FileNotFoundError`. -/

/-- One candidate entry of `os.listdir(src)` together with the file-system
state observed by the checks. -/
structure Entry where
  name : String
  isFile : Bool
  sizeNow : Option Nat
deriving DecidableEq, Repr

/-- The extension whitelist hard-coded in `_validate_input_file`. -/
def validExtensions : List String := [".jpg", ".jpeg", ".png", ".bmp"]

deriving instance DecidableEq for Except

/-- `file_name.lower().endswith(valid_extensions)`: `str.lower` lowercases
character-wise and `endswith` is a suffix test, both taken over the
underlying character lists. -/
def hasValidExt (name : String) : Bool :=
  validExtensions.any fun ext =>
    ext.data.isSuffixOf (name.data.map Char.toLower)

/-- Embeds `_validate_input_file`.  `Except.error ()` is the
`FileNotFoundError` raised by `os.path.getsize` when the entry passed the
`isfile` check but vanished before the size check. -/
def validateInputFile (e : Entry) : Except Unit Bool :=
  if !e.isFile then .ok false
  else if !hasValidExt e.name then .ok false
  else
    match e.sizeNow with
    | none => .error ()
    | some sz => if sz = 0 then .ok false else .ok true

/-- An entry the producer enqueues: validation returned `True`. -/
def isValid (e : Entry) : Bool :=
  match validateInputFile e with
  | .ok true => true
  | _ => false

/-- The ways `os.listdir(src)` itself can fail, each caught by a dedicated
`except` clause in `_produce_tasks`. -/
inductive DirError where
  | notFound
  | permissionDenied
deriving DecidableEq, Repr

/-- The error message `_produce_tasks` logs for each caught exception. -/
def producerErrorLog (src : String) : DirError → String
  | .notFound => "Source folder not found: " ++ src
  | .permissionDenied => "Permission denied accessing folder: " ++ src

/-- Outcome of `_produce_tasks`: the tasks put on the queue in order, the
`added_count` and `skipped_count` tallies, and which exception handler ran
(if any). -/
structure ProduceResult where
  tasks : List String
  added : Nat
  skipped : Nat
  errorLogged : Option DirError
deriving DecidableEq, Repr

/-- The `for entry in os.listdir(src)` loop body of `_produce_tasks`.  A
`FileNotFoundError` escaping `_validate_input_file` is caught by the outer
`except FileNotFoundError` handler — the one written for a missing source
folder — so enumeration of the remaining entries is aborted. -/
def produceLoop : List Entry → ProduceResult
  | [] => { tasks := [], added := 0, skipped := 0, errorLogged := none }
  | e :: rest =>
    match validateInputFile e with
    | .error () => { tasks := [], added := 0, skipped := 0, errorLogged := some .notFound }
    | .ok true =>
      let r := produceLoop rest
      { r with tasks := e.name :: r.tasks, added := r.added + 1 }
    | .ok false =>
      let r := produceLoop rest
      { r with skipped := r.skipped + 1 }

/-- Embeds `_produce_tasks`.  `listing` is the result of `os.listdir(src)`:
a raised `FileNotFoundError`/`PermissionError` is caught, logged, and yields
zero tasks. -/
def produceTasks (listing : Except DirError (List Entry)) : ProduceResult :=
  match listing with
  | .error err => { tasks := [], added := 0, skipped := 0, errorLogged := some err }
  | .ok entries => produceLoop entries

/-! ## Worker-side processing (`ImageWorker.process_image`)

Logging is modelled structurally: each record carries the worker id and the
task (file name) it is tagged with, as the format strings in the code do. -/

/-- A log record emitted by `process_image`, tagged with the worker's
thread id and the file name being processed. -/
inductive LogEntry where
  | processing (workerId : Nat) (task : String)
  | finished (workerId : Nat) (task : String)
  | procError (workerId : Nat) (task : String) (msg : String)
deriving DecidableEq, Repr

/-- The log records `process_image` emits for one task, given the outcome of
the transform (`none` = success, `some e` = the caught exception's message).
The `except Exception` handler converts any failure into a `procError`
record; nothing propagates. -/
def processLog (workerId : Nat) (task : String) (res : Option String) : List LogEntry :=
  match res with
  | none => [.processing workerId task, .finished workerId task]
  | some e => [.processing workerId task, .procError workerId task e]

/-- Embeds `ImageWorker.process_image`: the input and output paths are
joined from the configuration, the transform (`Image.open` / `resize` /
`save`) runs inside `try`, and any exception it raises is caught and logged
with the file name.  The return type has no error channel: the function
always returns normally, whatever the transform does. -/
def processImage (cfg : Config) (workerId : Nat) (fileName : String)
    (transform : String → String → Nat × Nat → Except String Unit) : List LogEntry :=
  let inputPath := pathJoin cfg.sourceFolder fileName
  let outputPath := pathJoin cfg.destinationFolder fileName
  match transform inputPath outputPath (cfg.resizeWidth, cfg.resizeHeight) with
  | .ok _ => processLog workerId fileName none
  | .error e => processLog workerId fileName (some e)

/-! ## The producer/consumer transition system

`queue.Queue` is a FIFO list of pending tasks plus the `unfinished_tasks`
counter: `put` appends and increments it, `get` removes the head, and
`task_done` decrements it; `join` returns only when it is zero.  Each worker
(`ImageWorker.run`) is a phase: `looping` (about to evaluate the loop
condition), `holding t` (a task was dequeued and is being processed), or
`stopped` (the loop exited).  The dispatcher (the main thread running
`BatchProcessorApp.run` / `_wait_for_completion`) is a phase recording how
far through produce / queue-join / stop-set / thread-join it has got.
Scheduling nondeterminism is an explicit finite trace of actions. -/

/-- Phase of one `ImageWorker.run` loop. -/
inductive WPhase where
  | looping
  | holding (t : String)
  | stopped
deriving DecidableEq, Repr

/-- Phase of the dispatcher thread: still enqueuing the listed tasks, blocked
in `task_queue.join()`, about to call `stop_event.set()`, joining the worker
threads, or finished. -/
inductive DPhase where
  | producing (remaining : List String)
  | joining
  | stopping
  | joiningWorkers
  | done
deriving DecidableEq, Repr

/-- Global state of one run: the shared queue and its `unfinished` counter,
the stop event, the worker phases, the dispatcher phase, the log, and
observational counters (tasks put, tasks dequeued, `task_done` calls, and
transform outcomes). -/
structure Sys where
  queue : List String
  unfinished : Nat
  stop : Bool
  workers : List WPhase
  disp : DPhase
  log : List LogEntry
  enqueued : Nat
  dequeued : Nat
  acks : Nat
  succeeded : Nat
  failed : Nat
deriving DecidableEq, Repr

/-- Whether a worker currently holds a dequeued task. -/
def isHolding : WPhase → Bool
  | .holding _ => true
  | _ => false

/-- Number of workers currently holding a dequeued task. -/
def holdingCount (ws : List WPhase) : Nat :=
  ws.countP isHolding

/-- All worker threads have exited their loops. -/
def allStopped (ws : List WPhase) : Bool :=
  ws.all fun w => w == .stopped

/-- The worker loop condition:
`not self.stop_event.is_set() or not self.task_queue.empty()`. -/
def loopCond (s : Sys) : Bool :=
  !s.stop || !s.queue.isEmpty

/-- One atomic action of the system.  Worker actions carry the index of the
worker taking the step; `process` also carries the transform outcome
(`none` = success, `some e` = caught exception message), since the transform
is an opaque external capability. -/
inductive Action where
  | produce
  | produceDone
  | joinRet
  | setStop
  | joinWorkers
  | pollGet (i : Nat)
  | pollEmpty (i : Nat)
  | exitLoop (i : Nat)
  | process (i : Nat) (res : Option String)
deriving DecidableEq, Repr

/-- The small-step semantics.  `none` means the action is not enabled in the
given state.

* `produce`: the producer puts the next enumerated task on the queue
  (`task_queue.put(entry)`), incrementing the unfinished counter.
* `produceDone`: enumeration is exhausted; the dispatcher moves on to
  `_wait_for_completion`.
* `joinRet`: `task_queue.join()` returns — enabled only when the unfinished
  counter is zero.
* `setStop`: `stop_event.set()`.
* `joinWorkers`: the `t.join()` loop returns — enabled only when every
  worker has stopped.
* `pollGet i`: worker `i`, back at the top of its loop, finds the condition
  true and `get(timeout=1)` returns the head of the queue.
* `pollEmpty i`: worker `i` finds the condition true but `get(timeout=1)`
  raises `queue.Empty`; the `continue` branch runs, calling nothing else.
* `exitLoop i`: worker `i` finds the loop condition false and exits.
* `process i res`: worker `i` runs `process_image` on the task it holds
  (appending that call's log records) and then `task_done()`, which
  decrements the unfinished counter (it would raise `ValueError` if the
  counter were zero, so the step is not taken then). -/
def applyStep (a : Action) (s : Sys) : Option Sys :=
  match a with
  | .produce =>
    match s.disp with
    | .producing (t :: rest) =>
      some { s with disp := .producing rest, queue := s.queue ++ [t],
                    unfinished := s.unfinished + 1, enqueued := s.enqueued + 1 }
    | _ => none
  | .produceDone =>
    match s.disp with
    | .producing [] => some { s with disp := .joining }
    | _ => none
  | .joinRet =>
    match s.disp with
    | .joining => if s.unfinished = 0 then some { s with disp := .stopping } else none
    | _ => none
  | .setStop =>
    match s.disp with
    | .stopping => some { s with disp := .joiningWorkers, stop := true }
    | _ => none
  | .joinWorkers =>
    match s.disp with
    | .joiningWorkers =>
      if allStopped s.workers then some { s with disp := .done } else none
    | _ => none
  | .pollGet i =>
    match s.workers[i]?, s.queue with
    | some .looping, t :: rest =>
      some { s with workers := s.workers.set i (.holding t), queue := rest,
                    dequeued := s.dequeued + 1 }
    | _, _ => none
  | .pollEmpty i =>
    match s.workers[i]?, s.queue with
    | some .looping, [] => if loopCond s then some s else none
    | _, _ => none
  | .exitLoop i =>
    match s.workers[i]? with
    | some .looping =>
      if loopCond s then none else some { s with workers := s.workers.set i .stopped }
    | _ => none
  | .process i res =>
    match s.workers[i]? with
    | some (.holding t) =>
      if s.unfinished = 0 then none
      else
        some { s with workers := s.workers.set i .looping,
                      unfinished := s.unfinished - 1,
                      acks := s.acks + 1,
                      succeeded := s.succeeded + (if res.isNone then 1 else 0),
                      failed := s.failed + (if res.isNone then 0 else 1),
                      log := s.log ++ processLog (i + 1) t res }
    | _ => none

/-- Run a finite trace of scheduler choices. -/
def run (as : List Action) (s : Sys) : Option Sys :=
  match as with
  | [] => some s
  | a :: rest =>
    match applyStep a s with
    | none => none
    | some s' => run rest s'

/-- The state right after `BatchProcessorApp.run` has started the workers
(`_start_workers`) and is about to enumerate `tasks` into the queue: `n`
workers polling, empty queue, stop event clear. -/
def initSys (tasks : List String) (n : Nat) : Sys :=
  { queue := [], unfinished := 0, stop := false,
    workers := List.replicate n .looping, disp := .producing tasks,
    log := [], enqueued := 0, dequeued := 0, acks := 0, succeeded := 0, failed := 0 }

/-! ## Invariants of the transition system -/

/-- Updating index `i` of a list changes `countP` by swapping the old
element's contribution for the new one's. -/
theorem countP_set_add {α : Type} (p : α → Bool) (l : List α) (i : Nat) (a b : α)
    (h : l[i]? = some b) :
    (l.set i a).countP p + (if p b then 1 else 0)
      = l.countP p + (if p a then 1 else 0) := by
  induction l generalizing i with
  | nil => simp at h
  | cons x xs ih =>
    cases i with
    | zero =>
      simp only [List.getElem?_cons_zero, Option.some.injEq] at h
      subst h
      simp only [List.set_cons_zero, List.countP_cons]
      omega
    | succ j =>
      simp only [List.getElem?_cons_succ] at h
      have := ih j h
      simp only [List.set_cons_succ, List.countP_cons]
      omega

/-- A worker index that resolves to a phase in an all-stopped pool resolves
to `stopped`. -/
theorem allStopped_get {ws : List WPhase} {i : Nat} {w : WPhase}
    (hall : allStopped ws = true) (hw : ws[i]? = some w) : w = .stopped := by
  have hm := List.getElem?_mem hw
  have := List.all_eq_true.mp hall w hm
  simpa using this

/-- A worker holding a task makes the holding count positive. -/
theorem holdingCount_pos {ws : List WPhase} {i : Nat} {t : String}
    (hw : ws[i]? = some (.holding t)) : 0 < holdingCount ws :=
  List.countP_pos_iff.mpr ⟨_, List.getElem?_mem hw, rfl⟩

/-- The run invariant: the `unfinished` counter counts pending plus held
tasks; every put is accounted for by an ack or a pending/held task; acks
split into successes and failures; every dequeue is accounted for by an ack
or a held task; the stop event is set exactly from the dispatcher's
`stop_event.set()` call onwards; `task_queue.join()` has returned only when
the counter is zero; and the run is complete only once all workers
stopped. -/
def Inv (s : Sys) : Prop :=
  s.unfinished = s.queue.length + holdingCount s.workers ∧
  s.enqueued = s.acks + s.unfinished ∧
  s.acks = s.succeeded + s.failed ∧
  s.dequeued = s.acks + holdingCount s.workers ∧
  (s.stop = true ↔ (s.disp = .joiningWorkers ∨ s.disp = .done)) ∧
  ((s.disp = .stopping ∨ s.disp = .joiningWorkers ∨ s.disp = .done) → s.unfinished = 0) ∧
  (s.disp = .done → allStopped s.workers = true)

/-- Every enabled step preserves the run invariant. -/
theorem inv_step {a : Action} {s s' : Sys} (hs : Inv s)
    (h : applyStep a s = some s') : Inv s' := by
  obtain ⟨h1, h2, h3, h4, h5, h6, h7⟩ := hs
  cases a with
  | produce =>
    simp only [applyStep] at h
    split at h
    · next t rest hd =>
      injection h with h
      subst h
      refine ⟨?_, ?_, h3, h4, ?_, ?_, ?_⟩ <;>
        simp_all [holdingCount] <;> omega
    · exact absurd h (by simp)
  | produceDone =>
    simp only [applyStep] at h
    split at h
    · next hd =>
      injection h with h
      subst h
      exact ⟨h1, h2, h3, h4, by simp_all, by simp, by simp⟩
    · exact absurd h (by simp)
  | joinRet =>
    simp only [applyStep] at h
    split at h
    · next hd =>
      split at h
      · next hz =>
        injection h with h
        subst h
        exact ⟨h1, h2, h3, h4, by simp_all, fun _ => hz, by simp⟩
      · exact absurd h (by simp)
    · exact absurd h (by simp)
  | setStop =>
    simp only [applyStep] at h
    split at h
    · next hd =>
      injection h with h
      subst h
      exact ⟨h1, h2, h3, h4, by simp, fun _ => h6 (Or.inl hd), by simp⟩
    · exact absurd h (by simp)
  | joinWorkers =>
    simp only [applyStep] at h
    split at h
    · next hd =>
      split at h
      · next hall =>
        injection h with h
        subst h
        exact ⟨h1, h2, h3, h4, by simp_all, fun _ => h6 (Or.inr (Or.inl hd)),
          fun _ => hall⟩
      · exact absurd h (by simp)
    · exact absurd h (by simp)
  | pollGet i =>
    simp only [applyStep] at h
    split at h
    · next t rest hw hq =>
      injection h with h
      subst h
      have hset := countP_set_add isHolding s.workers i (.holding t) .looping hw
      simp [isHolding] at hset
      refine ⟨?_, h2, h3, ?_, h5, h6, ?_⟩
      · simp only [holdingCount] at h1 ⊢
        simp only [hq, List.length_cons] at h1
        omega
      · simp only [holdingCount] at h4 ⊢
        omega
      · intro hd
        exact absurd (allStopped_get (h7 hd) hw) (by simp)
    · exact absurd h (by simp)
  | pollEmpty i =>
    simp only [applyStep] at h
    split at h
    · split at h
      · injection h with h
        subst h
        exact ⟨h1, h2, h3, h4, h5, h6, h7⟩
      · exact absurd h (by simp)
    · exact absurd h (by simp)
  | exitLoop i =>
    simp only [applyStep] at h
    split at h
    · next hw =>
      split at h
      · exact absurd h (by simp)
      · injection h with h
        subst h
        have hset := countP_set_add isHolding s.workers i .stopped .looping hw
        simp [isHolding] at hset
        refine ⟨?_, h2, h3, ?_, h5, h6, ?_⟩
        · simp only [holdingCount] at h1 ⊢
          omega
        · simp only [holdingCount] at h4 ⊢
          omega
        · intro hd
          exact absurd (allStopped_get (h7 hd) hw) (by simp)
    · exact absurd h (by simp)
  | process i res =>
    simp only [applyStep] at h
    split at h
    · next t hw =>
      split at h
      · exact absurd h (by simp)
      · next hnz =>
        injection h with h
        subst h
        have hset := countP_set_add isHolding s.workers i .looping (.holding t) hw
        simp [isHolding] at hset
        have hpos := holdingCount_pos hw
        refine ⟨?_, ?_, ?_, ?_, h5, ?_, ?_⟩
        · simp only [holdingCount] at h1 hpos ⊢
          omega
        · dsimp only
          omega
        · cases res <;> simp <;> omega
        · simp only [holdingCount] at h4 hpos ⊢
          omega
        · intro hd
          exact absurd (h6 hd) hnz
        · intro hd
          exact absurd (allStopped_get (h7 hd) hw) (by simp)
    · exact absurd h (by simp)

/-- The invariant is preserved along any enabled trace. -/
theorem inv_run {as : List Action} {s s' : Sys} (hs : Inv s)
    (h : run as s = some s') : Inv s' := by
  induction as generalizing s with
  | nil =>
    simp only [run] at h
    injection h with h
    subst h
    exact hs
  | cons a rest ih =>
    simp only [run] at h
    cases happ : applyStep a s with
    | none => rw [happ] at h; exact absurd h (by simp)
    | some s1 => rw [happ] at h; exact ih (inv_step hs happ) h

/-- The initial state of every run satisfies the invariant. -/
theorem inv_init (tasks : List String) (n : Nat) : Inv (initSys tasks n) := by
  refine ⟨?_, rfl, rfl, ?_, by simp [initSys], by simp [initSys], by simp [initSys]⟩ <;>
    simp [initSys, holdingCount, List.countP_replicate, isHolding]

/-- Setting a worker's phase to something other than `stopped` cannot make
another (or the same) index read as `stopped` unless it already did. -/
theorem getElem?_set_stopped {ws : List WPhase} {j i : Nat} {p : WPhase}
    (hp : p ≠ .stopped) (h : (ws.set j p)[i]? = some .stopped) :
    ws[i]? = some .stopped := by
  rw [List.getElem?_set] at h
  by_cases hij : j = i
  · simp only [hij, if_pos rfl] at h
    by_cases hlt : j < ws.length
    · rw [hij] at hlt
      rw [if_pos hlt] at h
      injection h with h
      exact absurd h hp
    · rw [hij] at hlt
      rw [if_neg hlt] at h
      exact absurd h (by simp)
  · rwa [if_neg hij] at h

/-- When no validation raises, `_produce_tasks` enqueues exactly the valid
entries in enumeration order, counts them as added, counts the rest as
skipped, and hits no exception handler. -/
theorem produceLoop_clean (entries : List Entry)
    (h : ∀ e ∈ entries, validateInputFile e ≠ .error ()) :
    produceLoop entries =
      { tasks := (entries.filter isValid).map Entry.name,
        added := entries.countP isValid,
        skipped := entries.countP (fun e => !isValid e),
        errorLogged := none } := by
  induction entries with
  | nil => rfl
  | cons e rest ih =>
    have he := h e (List.mem_cons_self e rest)
    have hrest := ih fun x hx => h x (List.mem_cons_of_mem e hx)
    cases hv : validateInputFile e with
    | error u => cases u; exact absurd hv he
    | ok b =>
      have hval : isValid e = b := by
        cases b <;> simp [isValid, hv]
      cases b with
      | true =>
        simp only [produceLoop, hv, hrest, List.filter_cons, List.countP_cons,
          hval, if_pos, List.map_cons]
        simp
      | false =>
        simp only [produceLoop, hv, hrest, List.filter_cons, List.countP_cons, hval]
        simp

/-- When a validation raises `FileNotFoundError` at some entry, the outer
handler aborts the loop: only the valid entries strictly before that point
are enqueued and counted, and the missing-source-folder handler runs. -/
theorem produceLoop_abort (pre : List Entry) (bad : Entry) (post : List Entry)
    (hpre : ∀ e ∈ pre, validateInputFile e ≠ .error ())
    (hbad : validateInputFile bad = .error ()) :
    produceLoop (pre ++ bad :: post) =
      { tasks := (pre.filter isValid).map Entry.name,
        added := pre.countP isValid,
        skipped := pre.countP (fun e => !isValid e),
        errorLogged := some .notFound } := by
  induction pre with
  | nil =>
    simp only [List.nil_append, produceLoop, hbad]
    rfl
  | cons e rest ih =>
    have he := hpre e (List.mem_cons_self e rest)
    have hrest := ih fun x hx => hpre x (List.mem_cons_of_mem e hx)
    cases hv : validateInputFile e with
    | error u => cases u; exact absurd hv he
    | ok b =>
      have hval : isValid e = b := by
        cases b <;> simp [isValid, hv]
      cases b with
      | true =>
        simp only [List.cons_append, produceLoop, hv, List.filter_cons,
          List.countP_cons, hval]
        simp [hrest]
      | false =>
        simp only [List.cons_append, produceLoop, hv, List.filter_cons,
          List.countP_cons, hval]
        simp [hrest]

/-! ## Demonstration runs

Explicit schedules and their final states, used to exercise the claims on
concrete inputs. -/

/-- A run of one task on one worker whose transform succeeds. -/
def okTrace : List Action :=
  [.produce, .pollGet 0, .process 0 none, .produceDone, .joinRet, .setStop,
   .exitLoop 0, .joinWorkers]

/-- The final state of `okTrace` from `initSys ["a.jpg"] 1`. -/
def okFinal : Sys :=
  { queue := [], unfinished := 0, stop := true, workers := [.stopped],
    disp := .done,
    log := [.processing 1 "a.jpg", .finished 1 "a.jpg"],
    enqueued := 1, dequeued := 1, acks := 1, succeeded := 1, failed := 0 }

/-- A run of one task on one worker whose transform raises. -/
def failTrace : List Action :=
  [.produce, .pollGet 0, .process 0 (some "cannot identify image file"),
   .produceDone, .joinRet, .setStop, .exitLoop 0, .joinWorkers]

/-- The final state of `failTrace` from `initSys ["bad.jpg"] 1`. -/
def failFinal : Sys :=
  { queue := [], unfinished := 0, stop := true, workers := [.stopped],
    disp := .done,
    log := [.processing 1 "bad.jpg", .procError 1 "bad.jpg" "cannot identify image file"],
    enqueued := 1, dequeued := 1, acks := 1, succeeded := 0, failed := 1 }

/-- A run with an empty task list and two workers: both poll empty once,
the dispatcher's join returns at once, the stop event is raised, and both
workers exit without ever claiming a task. -/
def noTaskTrace : List Action :=
  [.produceDone, .pollEmpty 0, .pollEmpty 1, .joinRet, .setStop,
   .exitLoop 0, .exitLoop 1, .joinWorkers]

/-- The final state of `noTaskTrace` from `initSys [] 2`. -/
def noTaskFinal : Sys :=
  { queue := [], unfinished := 0, stop := true, workers := [.stopped, .stopped],
    disp := .done, log := [],
    enqueued := 0, dequeued := 0, acks := 0, succeeded := 0, failed := 0 }

/-! ## The claims -/

/-- C1: for every task successfully dequeued by a worker, exactly one
`task_done` acknowledgment is issued, unconditionally, whether the transform
succeeded or failed, tied to that dequeued task (the `process` step acks
exactly the task the worker holds and logs it, for either outcome);
consequently after any completed run the number of enqueued tasks equals
succeeded plus failed tasks. -/
theorem c1_each_dequeued_task_acked_once
    (tasks : List String) (n : Nat) (as : List Action) (s : Sys)
    (h : run as (initSys tasks n) = some s) :
    s.acks = s.succeeded + s.failed ∧
    s.dequeued = s.acks + holdingCount s.workers ∧
    (∀ i res s', applyStep (.process i res) s = some s' →
      ∃ t, s.workers[i]? = some (.holding t) ∧ s'.acks = s.acks + 1 ∧
        s'.log = s.log ++ processLog (i + 1) t res) ∧
    (s.disp = .done → s.enqueued = s.succeeded + s.failed ∧ s.dequeued = s.acks) := by
  have hinv := inv_run (inv_init tasks n) h
  obtain ⟨h1, h2, h3, h4, h5, h6, h7⟩ := hinv
  refine ⟨h3, h4, ?_, ?_⟩
  · intro i res s' hstep
    simp only [applyStep] at hstep
    split at hstep
    · next t hw =>
      split at hstep
      · exact absurd hstep (by simp)
      · injection hstep with hstep
        subst hstep
        exact ⟨t, hw, rfl, rfl⟩
    · exact absurd hstep (by simp)
  · intro hd
    have hz := h6 (Or.inr (Or.inr hd))
    constructor
    · omega
    · have : holdingCount s.workers = 0 := by
        simp only [holdingCount] at h1 ⊢
        omega
      omega

/-- Witness for C1 at a concrete completed run. -/
theorem c1_witness :
    run okTrace (initSys ["a.jpg"] 1) = some okFinal ∧
    okFinal.enqueued = okFinal.succeeded + okFinal.failed :=
  ⟨rfl,
    ((c1_each_dequeued_task_acked_once ["a.jpg"] 1 okTrace okFinal rfl).2.2.2 rfl).1⟩

/-- C2: a worker keeps looping while the stop event is clear or the queue
is non-empty; the only transition that stops a worker requires the stop
event set and the queue empty, so raising the stop event while the queue
still holds items never makes a worker exit before they are drained. -/
theorem c2_exit_only_when_stopped_and_drained
    (a : Action) (i : Nat) (s s' : Sys)
    (h : applyStep a s = some s')
    (hw : s.workers[i]? ≠ some .stopped)
    (hw' : s'.workers[i]? = some .stopped) :
    s.stop = true ∧ s.queue = [] ∧ loopCond s = false := by
  cases a with
  | produce =>
    simp only [applyStep] at h
    split at h
    · injection h with h
      subst h
      exact absurd hw' hw
    · exact absurd h (by simp)
  | produceDone =>
    simp only [applyStep] at h
    split at h
    · injection h with h
      subst h
      exact absurd hw' hw
    · exact absurd h (by simp)
  | joinRet =>
    simp only [applyStep] at h
    split at h
    · split at h
      · injection h with h
        subst h
        exact absurd hw' hw
      · exact absurd h (by simp)
    · exact absurd h (by simp)
  | setStop =>
    simp only [applyStep] at h
    split at h
    · injection h with h
      subst h
      exact absurd hw' hw
    · exact absurd h (by simp)
  | joinWorkers =>
    simp only [applyStep] at h
    split at h
    · split at h
      · injection h with h
        subst h
        exact absurd hw' hw
      · exact absurd h (by simp)
    · exact absurd h (by simp)
  | pollGet j =>
    simp only [applyStep] at h
    split at h
    · injection h with h
      subst h
      exact absurd (getElem?_set_stopped (by simp) hw') hw
    · exact absurd h (by simp)
  | pollEmpty j =>
    simp only [applyStep] at h
    split at h
    · split at h
      · injection h with h
        subst h
        exact absurd hw' hw
      · exact absurd h (by simp)
    · exact absurd h (by simp)
  | exitLoop j =>
    simp only [applyStep] at h
    split at h
    · next hj =>
      split at h
      · exact absurd h (by simp)
      · next hcond =>
        have hcond' : loopCond s = false := by
          cases hc : loopCond s with
          | false => rfl
          | true => exact absurd hc hcond
        have hstop : s.stop = true ∧ s.queue.isEmpty = true := by
          simp only [loopCond, Bool.or_eq_false_iff, Bool.not_eq_false',
            Bool.not_eq_false] at hcond'
          exact hcond'
        exact ⟨hstop.1, List.isEmpty_iff.mp hstop.2, hcond'⟩
    · exact absurd h (by simp)
  | process j res =>
    simp only [applyStep] at h
    split at h
    · split at h
      · exact absurd h (by simp)
      · injection h with h
        subst h
        exact absurd (getElem?_set_stopped (by simp) hw') hw
    · exact absurd h (by simp)

/-- Witness for C2: a worker stepping from `looping` to `stopped`. -/
theorem c2_witness :
    ({ queue := [], unfinished := 0, stop := true, workers := [.looping],
       disp := .joiningWorkers, log := [], enqueued := 0, dequeued := 0,
       acks := 0, succeeded := 0, failed := 0 } : Sys).stop = true :=
  (c2_exit_only_when_stopped_and_drained (.exitLoop 0) 0
    { queue := [], unfinished := 0, stop := true, workers := [.looping],
      disp := .joiningWorkers, log := [], enqueued := 0, dequeued := 0,
      acks := 0, succeeded := 0, failed := 0 }
    { queue := [], unfinished := 0, stop := true, workers := [.stopped],
      disp := .joiningWorkers, log := [], enqueued := 0, dequeued := 0,
      acks := 0, succeeded := 0, failed := 0 }
    rfl (by simp) rfl).1

/-- C3: shutdown order.  In every reachable state: once the stop event is
set the unfinished count is zero and the queue was drained (so
`task_queue.join()` returned before `stop_event.set()` ran); `join()`
returns only when the count is zero; `stop_event.set()` runs only from the
phase entered by `join()` returning, while the stop event is still clear;
the worker-thread join completes only with the stop event set and all
workers stopped; and the run is complete only after all of that. -/
theorem c3_shutdown_strictly_ordered
    (tasks : List String) (n : Nat) (as : List Action) (s : Sys)
    (h : run as (initSys tasks n) = some s) :
    (s.stop = true → s.unfinished = 0 ∧ s.queue = [] ∧ holdingCount s.workers = 0) ∧
    (∀ s', applyStep .joinRet s = some s' → s.unfinished = 0) ∧
    (∀ s', applyStep .setStop s = some s' → s.disp = .stopping ∧ s.stop = false ∧
      s.unfinished = 0) ∧
    (∀ s', applyStep .joinWorkers s = some s' →
      s.stop = true ∧ allStopped s.workers = true) ∧
    (s.disp = .done → s.stop = true ∧ allStopped s.workers = true) := by
  have hinv := inv_run (inv_init tasks n) h
  obtain ⟨h1, h2, h3, h4, h5, h6, h7⟩ := hinv
  refine ⟨?_, ?_, ?_, ?_, ?_⟩
  · intro hstop
    have hz : s.unfinished = 0 := h6 (Or.inr (h5.mp hstop))
    have hq : s.queue.length = 0 ∧ holdingCount s.workers = 0 := by
      constructor <;> omega
    exact ⟨hz, List.length_eq_zero.mp hq.1, hq.2⟩
  · intro s' hstep
    simp only [applyStep] at hstep
    split at hstep
    · split at hstep
      · next hz => exact hz
      · exact absurd hstep (by simp)
    · exact absurd hstep (by simp)
  · intro s' hstep
    simp only [applyStep] at hstep
    split at hstep
    · next hd =>
      refine ⟨hd, ?_, h6 (Or.inl hd)⟩
      cases hst : s.stop with
      | false => rfl
      | true =>
        have := h5.mp hst
        rw [hd] at this
        rcases this with h' | h' <;> exact absurd h' (by simp)
    · exact absurd hstep (by simp)
  · intro s' hstep
    simp only [applyStep] at hstep
    split at hstep
    · next hd =>
      split at hstep
      · next hall => exact ⟨h5.mpr (Or.inl hd), hall⟩
      · exact absurd hstep (by simp)
    · exact absurd hstep (by simp)
  · intro hd
    exact ⟨h5.mpr (Or.inr hd), h7 hd⟩

/-- Witness for C3 at a concrete completed run. -/
theorem c3_witness :
    run okTrace (initSys ["a.jpg"] 1) = some okFinal ∧
    okFinal.stop = true ∧ allStopped okFinal.workers = true :=
  ⟨rfl, (c3_shutdown_strictly_ordered ["a.jpg"] 1 okTrace okFinal rfl).2.2.2.2 rfl⟩

/-- C4: a worker whose `get(timeout=1)` raises `queue.Empty` changes
nothing at all — no `task_done`, no counter change — and is immediately
back at the loop condition (`continue`); the step is enabled only with an
empty queue and a true loop condition. -/
theorem c4_empty_dequeue_is_frame
    (i : Nat) (s s' : Sys) (h : applyStep (.pollEmpty i) s = some s') :
    s' = s ∧ s.queue = [] ∧ s.workers[i]? = some .looping ∧ loopCond s = true := by
  simp only [applyStep] at h
  split at h
  · next hw hq =>
    split at h
    · next hc =>
      injection h with h
      exact ⟨h.symm, hq, hw, hc⟩
    · exact absurd h (by simp)
  · exact absurd h (by simp)

/-- Witness for C4: one worker polling an empty queue before the stop
event is raised. -/
theorem c4_witness :
    applyStep (.pollEmpty 0) (initSys ["a.jpg"] 1) = some (initSys ["a.jpg"] 1) ∧
    (initSys ["a.jpg"] 1).queue = [] :=
  ⟨rfl, (c4_empty_dequeue_is_frame 0 (initSys ["a.jpg"] 1) (initSys ["a.jpg"] 1) rfl).2.1⟩

/-- C5: the producer enqueues a candidate entry iff it is a regular file,
its name ends case-insensitively with one of the recognized extensions, and
its size is strictly positive; when no check raises, every failing entry is
skipped and counted while enumeration continues, enqueuing exactly the valid
entries in order. -/
theorem c5_validation_predicate :
    (∀ e : Entry, validateInputFile e = .ok true ↔
      (e.isFile = true ∧ hasValidExt e.name = true ∧
        ∃ sz, e.sizeNow = some sz ∧ 0 < sz)) ∧
    (∀ entries : List Entry, (∀ e ∈ entries, validateInputFile e ≠ .error ()) →
      produceTasks (.ok entries) =
        { tasks := (entries.filter isValid).map Entry.name,
          added := entries.countP isValid,
          skipped := entries.countP (fun e => !isValid e),
          errorLogged := none }) := by
  constructor
  · intro e
    unfold validateInputFile
    cases hf : e.isFile with
    | false => simp [hf]
    | true =>
      cases hx : hasValidExt e.name with
      | false => simp [hf, hx]
      | true =>
        cases hs : e.sizeNow with
        | none => simp [hf, hx, hs]
        | some sz =>
          by_cases hz : sz = 0
          · simp [hf, hx, hs, hz]
          · simp [hf, hx, hs, hz]
            omega
  · intro entries h
    simpa [produceTasks] using produceLoop_clean entries h

/-- Witness for C5: the spec's scenario listing — a 10 KB `a.jpg`, a text
file, an empty `c.png`, and a subdirectory — yields exactly one task and
three skips. -/
theorem c5_witness :
    produceTasks (.ok [⟨"a.jpg", true, some 10240⟩, ⟨"b.txt", true, some 2048⟩,
        ⟨"c.png", true, some 0⟩, ⟨"sub", false, some 4096⟩]) =
      { tasks := ["a.jpg"], added := 1, skipped := 3, errorLogged := none } := by
  have h := c5_validation_predicate.2
    [⟨"a.jpg", true, some 10240⟩, ⟨"b.txt", true, some 2048⟩,
     ⟨"c.png", true, some 0⟩, ⟨"sub", false, some 4096⟩] (by decide)
  rw [h]
  rfl

/-- A fully populated configuration used in concrete instances. -/
def sampleConfig : Config :=
  { numberOfThreads := some 4, sourceFolder := "/app/data/input",
    destinationFolder := "/app/data/output", logFile := "/app/logs/app.log",
    resizeWidth := 800, resizeHeight := 600 }

/-- C6: an exception from the transform is caught at the worker boundary and
logged with the task identity; `process_image` always returns normally, the
worker goes back to its loop rather than terminating, the task is not
re-enqueued (no retry), the acknowledgment is still issued, and a run whose
only task always fails still completes with `succeeded = 0`, `failed = 1`. -/
theorem c6_transform_exception_contained :
    (∀ (cfg : Config) (wid : Nat) (fn : String)
        (tf : String → String → Nat × Nat → Except String Unit) (e : String),
      tf (pathJoin cfg.sourceFolder fn) (pathJoin cfg.destinationFolder fn)
          (cfg.resizeWidth, cfg.resizeHeight) = .error e →
      processImage cfg wid fn tf = [.processing wid fn, .procError wid fn e]) ∧
    (∀ (i : Nat) (e : String) (s s' : Sys),
      applyStep (.process i (some e)) s = some s' →
      ∃ t, s.workers[i]? = some (.holding t) ∧
        s'.workers[i]? = some .looping ∧
        s'.queue = s.queue ∧
        s'.acks = s.acks + 1 ∧
        s'.failed = s.failed + 1 ∧
        s'.succeeded = s.succeeded ∧
        LogEntry.procError (i + 1) t e ∈ s'.log) ∧
    (run failTrace (initSys ["bad.jpg"] 1) = some failFinal ∧
      failFinal.disp = .done ∧ failFinal.succeeded = 0 ∧ failFinal.failed = 1 ∧
      allStopped failFinal.workers = true) := by
  refine ⟨?_, ?_, rfl, rfl, rfl, rfl, rfl⟩
  · intro cfg wid fn tf e htf
    simp only [processImage, htf, processLog]
  · intro i e s s' hstep
    simp only [applyStep] at hstep
    split at hstep
    · next t hw =>
      split at hstep
      · exact absurd hstep (by simp)
      · injection hstep with hstep
        subst hstep
        have hlt : i < s.workers.length := (List.getElem?_eq_some_iff.mp hw).1
        refine ⟨t, hw, ?_, rfl, rfl, ?_, ?_, ?_⟩
        · exact List.getElem?_set_self hlt
        · simp
        · simp
        · simp [processLog]
    · exact absurd hstep (by simp)

/-- Witness for C6: a transform raising on concrete paths is caught and
logged with the file name. -/
theorem c6_witness :
    processImage sampleConfig 1 "bad.jpg" (fun _ _ _ => .error "truncated file") =
      [.processing 1 "bad.jpg", .procError 1 "bad.jpg" "truncated file"] :=
  c6_transform_exception_contained.1 sampleConfig 1 "bad.jpg"
    (fun _ _ _ => .error "truncated file") "truncated file" rfl

/-- C7: an unreadable source directory makes the producer log the specific
condition and yield zero tasks (the two conditions log distinct messages),
and the run is not fatal: with zero tasks the dispatcher still proceeds,
`join()` returns at once, the stop event is raised, and all workers stop
without ever claiming a task. -/
theorem c7_unreadable_directory_not_fatal :
    (∀ err, produceTasks (.error err) =
      { tasks := [], added := 0, skipped := 0, errorLogged := some err }) ∧
    (∀ src, producerErrorLog src .notFound ≠ producerErrorLog src .permissionDenied) ∧
    ((produceTasks (.error .notFound)).tasks = [] ∧
      run noTaskTrace (initSys (produceTasks (.error .notFound)).tasks 2) =
        some noTaskFinal ∧
      noTaskFinal.disp = .done ∧ noTaskFinal.stop = true ∧
      noTaskFinal.enqueued = 0 ∧ noTaskFinal.dequeued = 0 ∧
      allStopped noTaskFinal.workers = true) := by
  refine ⟨fun err => rfl, ?_, rfl, rfl, rfl, rfl, rfl, rfl, rfl⟩
  intro src h
  have hlen := congrArg String.length h
  have h1 : ("Source folder not found: ").length = 25 := rfl
  have h2 : ("Permission denied accessing folder: ").length = 36 := rfl
  simp only [producerErrorLog, String.length_append, h1, h2] at hlen
  omega

/-- Witness for C7: the permission-denied condition is reported and yields
zero tasks. -/
theorem c7_witness :
    produceTasks (.error .permissionDenied) =
      { tasks := [], added := 0, skipped := 0,
        errorLogged := some .permissionDenied } :=
  c7_unreadable_directory_not_fatal.1 .permissionDenied

/-- C8 counterexample: with the `number_of_threads` key unset and eight
processing units detectable, the claim says the pool size is eight, but
`_start_workers` raises `KeyError` and produces no pool size at all. -/
theorem c8_counterexample :
    ¬ startWorkersCount none (some 8) = .ok 8 ∧
    startWorkersCount none (some 8) = .error "KeyError: number_of_threads" :=
  ⟨by decide, rfl⟩

/-- C8 (amended): the pool size equals the configured thread count when it
is positive; when it is zero or negative it equals the number of available
processing units, falling back to 4 when that cannot be determined; when
the key is unset, startup raises `KeyError` and no pool size is produced;
and no step of a run changes the pool size. -/
theorem c8_pool_size_amended (t : Int) (cpu : Option Nat) :
    (0 < t → startWorkersCount (some t) cpu = .ok t.toNat) ∧
    (t ≤ 0 → startWorkersCount (some t) cpu = .ok (cpuCountOr4 cpu)) ∧
    cpuCountOr4 none = 4 ∧
    (∀ e, startWorkersCount none cpu ≠ .ok e) ∧
    (∀ (a : Action) (s s' : Sys), applyStep a s = some s' →
      s'.workers.length = s.workers.length) := by
  refine ⟨?_, ?_, rfl, ?_, ?_⟩
  · intro ht
    simp only [startWorkersCount]
    rw [if_neg (by omega)]
  · intro ht
    simp only [startWorkersCount]
    rw [if_pos ht]
  · intro e
    simp [startWorkersCount]
  · intro a s s' h
    have hw : s'.workers = s.workers ∨ ∃ j p, s'.workers = s.workers.set j p := by
      cases a <;> simp only [applyStep] at h <;> repeat' split at h
      all_goals
        first
        | exact Option.noConfusion h
        | (injection h with h; subst h; exact Or.inl rfl)
        | (injection h with h; subst h; exact Or.inr ⟨_, _, rfl⟩)
    rcases hw with h' | ⟨j, p, h'⟩ <;> simp [h', List.length_set]

/-- Witness for C8 (amended): a positive configured count is used as-is;
zero selects the detected CPU count; an undetectable CPU count falls back
to 4. -/
theorem c8_witness :
    startWorkersCount (some 3) (some 8) = .ok 3 ∧
    startWorkersCount (some 0) (some 8) = .ok 8 ∧
    startWorkersCount (some 0) none = .ok 4 :=
  ⟨(c8_pool_size_amended 3 (some 8)).1 (by decide),
   (c8_pool_size_amended 0 (some 8)).2.1 (by decide),
   (c8_pool_size_amended 0 none).2.1 (by decide)⟩

/-- C9: `load_config` raises `FileNotFoundError` exactly when the path does
not exist, raises `ValueError` exactly when the content is not valid JSON,
returns the parsed configuration otherwise, and application construction
does not proceed past either error. -/
theorem c9_load_config_contract
    (path : String) (pathExists : Bool) (parsed : Except String Config)
    (baseDir : String) :
    ((∃ m, loadConfig path pathExists parsed = .error (.fileNotFound m)) ↔
      pathExists = false) ∧
    ((∃ m, loadConfig path pathExists parsed = .error (.valueError m)) ↔
      (pathExists = true ∧ ∃ e, parsed = .error e)) ∧
    (∀ c, loadConfig path pathExists parsed = .ok c ↔
      (pathExists = true ∧ parsed = .ok c)) ∧
    (∀ err, loadConfig (pathJoin (pathJoin baseDir "conf") "config.json")
        pathExists parsed = .error err →
      appInit baseDir pathExists parsed = .error err) := by
  cases pathExists <;> cases parsed <;> simp [loadConfig, appInit]

/-- Witness for C9: construction on a missing configuration file stops with
`FileNotFoundError`. -/
theorem c9_witness :
    appInit "/app" false (.ok sampleConfig) =
      .error (.fileNotFound
        "Configuration file not found at: /app/conf/config.json") :=
  (c9_load_config_contract "/app/conf/config.json" false (.ok sampleConfig)
    "/app").2.2.2
    (.fileNotFound "Configuration file not found at: /app/conf/config.json") rfl

/-- Listing in which `gone.png` passes the `isfile` check but vanishes
before the size check, so `os.path.getsize` raises. -/
def vanishedListing : List Entry :=
  [⟨"a.jpg", true, some 10240⟩, ⟨"gone.png", true, none⟩,
   ⟨"z.bmp", true, some 512⟩]

/-- C10: when a file disappears between the is-file check and the size
check, the resulting `FileNotFoundError` is caught by the producer's
missing-directory handler and aborts enumeration: only the valid entries
before that point are enqueued, entries after it never are, and the run
still completes normally for the tasks enqueued before it. -/
theorem c10_vanished_file_aborts_enumeration
    (pre : List Entry) (bad : Entry) (post : List Entry)
    (hpre : ∀ e ∈ pre, validateInputFile e ≠ .error ())
    (hbad : validateInputFile bad = .error ()) :
    produceTasks (.ok (pre ++ bad :: post)) =
      { tasks := (pre.filter isValid).map Entry.name,
        added := pre.countP isValid,
        skipped := pre.countP (fun e => !isValid e),
        errorLogged := some .notFound } ∧
    ((produceTasks (.ok vanishedListing)).tasks = ["a.jpg"] ∧
      run okTrace (initSys (produceTasks (.ok vanishedListing)).tasks 1) =
        some okFinal ∧
      okFinal.disp = .done ∧ okFinal.succeeded = 1 ∧ okFinal.failed = 0) := by
  refine ⟨?_, rfl, rfl, rfl, rfl, rfl⟩
  simpa [produceTasks] using produceLoop_abort pre bad post hpre hbad

/-- Witness for C10: on the vanished-file listing, only `a.jpg` (before the
vanished entry) is enqueued, `z.bmp` (after it) never is, and the
missing-directory handler ran. -/
theorem c10_witness :
    produceTasks (.ok vanishedListing) =
      { tasks := ["a.jpg"], added := 1, skipped := 0,
        errorLogged := some .notFound } := by
  have h := (c10_vanished_file_aborts_enumeration
    [⟨"a.jpg", true, some 10240⟩] ⟨"gone.png", true, none⟩
    [⟨"z.bmp", true, some 512⟩] (by decide) (by decide)).1
  have hl : ([⟨"a.jpg", true, some 10240⟩] : List Entry) ++
      ⟨"gone.png", true, none⟩ :: [⟨"z.bmp", true, some 512⟩] =
      vanishedListing := rfl
  rw [hl] at h
  rw [h]
  rfl

end IBP
